import Mathlib

/-!
# Verification of the FOMC statement collector

Shallow embedding, in Lean 4, of the FOMC calendar collector
(`src/fomc/collector.py`) and the catalog query service
(`src/fomc/server.py`).

Pure Python functions become Lean functions; the network and the file
system are modelled by explicit oracles / state records; Python
exceptions (`ValueError` from `strptime`, `requests.RequestException`)
become `Except` / `Option` results.  Standard-library calls that the
source relies on (`re` matching, `datetime.strptime` with the
`"%B %d %Y"` format, `urllib.parse.urljoin`, string methods) are
modelled faithfully for the ASCII inputs the program manipulates.
-/

namespace Fomc

/-! ## Characters and Python string primitives -/

/-- Whitespace characters recognised by Python's `\s` / `str.strip`
(ASCII fragment; the calendar pipeline only manipulates ASCII text). -/
def isSpaceChar (c : Char) : Bool :=
  c = ' ' ∨ c = '\t' ∨ c = '\n' ∨ c = '\x0d' ∨ c = '\x0c' ∨ c = '\x0b'

def isAsciiAlpha (c : Char) : Bool :=
  ('a' ≤ c ∧ c ≤ 'z') ∨ ('A' ≤ c ∧ c ≤ 'Z')

def isAsciiDigit (c : Char) : Bool :=
  '0' ≤ c ∧ c ≤ '9'

/-- Numeric value of a decimal digit character. -/
def digitVal (c : Char) : Nat := c.toNat - 48

/-- Python `str.lower` (ASCII fragment): map `A`-`Z` to `a`-`z`. -/
def pyLowerChar (c : Char) : Char :=
  if 'A' ≤ c ∧ c ≤ 'Z' then Char.ofNat (c.toNat + 32) else c

def pyLower (s : String) : String := String.mk (s.data.map pyLowerChar)

/-- Drop trailing elements satisfying `p` (helper for `str.strip`). -/
def dropTrailing (p : Char → Bool) (l : List Char) : List Char :=
  (l.reverse.dropWhile p).reverse

/-- Python `str.strip()`: remove leading and trailing whitespace. -/
def pyStrip (s : String) : String :=
  String.mk (dropTrailing isSpaceChar (s.data.dropWhile isSpaceChar))

/-- Collapse adjacent `' '` characters into one (helper: after all
whitespace is mapped to `' '`, this realises `re.sub(r"\s+", " ", ·)`). -/
def squeezeSpaces : List Char → List Char
  | [] => []
  | [c] => [c]
  | a :: b :: cs =>
    if a = ' ' ∧ b = ' ' then squeezeSpaces (b :: cs)
    else a :: squeezeSpaces (b :: cs)

/-- Model of `_normalize_whitespace` (collector.py:77-78):
`re.sub(r"\s+", " ", text).strip()`. -/
def normalizeWhitespace (s : String) : String :=
  let collapsed := squeezeSpaces (s.data.map (fun c => if isSpaceChar c then ' ' else c))
  String.mk (dropTrailing (· = ' ') (collapsed.dropWhile (· = ' ')))

/-- Python substring test `needle in hay` on char lists. -/
def listContainsSub (needle hay : List Char) : Bool :=
  hay.tails.any (fun t => needle.isPrefixOf t)

/-- Python substring test `needle in hay`. -/
def containsSub (needle hay : String) : Bool :=
  listContainsSub needle.data hay.data

/-! ## Decimal rendering (Python `str(n)` / `%0Nd` formatting) -/

/-- Decimal digit characters of `n`, most significant first
(fuel-based so the recursion is structural). -/
def digitsAux : Nat → Nat → List Char
  | 0, _ => []
  | fuel + 1, n =>
    if n < 10 then [Char.ofNat (48 + n)]
    else digitsAux fuel (n / 10) ++ [Char.ofNat (48 + n % 10)]

def natDigits (n : Nat) : List Char := digitsAux (n + 1) n

/-- Python `str(n)` for a natural number. -/
def natRepr (n : Nat) : String := String.mk (natDigits n)

/-- Zero-pad to width `w` (Python `"%0*d"`). -/
def padNat (w n : Nat) : String :=
  let ds := natDigits n
  String.mk (List.replicate (w - ds.length) '0' ++ ds)

/-! ## Calendar dates (Python `datetime.date`) -/

/-- A calendar date as produced by `datetime.date`. -/
structure Date where
  year : Nat
  month : Nat
  day : Nat
  deriving DecidableEq, Repr

/-- Gregorian leap-year test, as in Python's `calendar`/`datetime`. -/
def isLeapYear (y : Nat) : Bool :=
  y % 4 = 0 ∧ (y % 100 ≠ 0 ∨ y % 400 = 0)

/-- Days in month `m` of year `y` (Python `calendar.monthrange`). -/
def daysInMonth (y m : Nat) : Nat :=
  if m = 2 then (if isLeapYear y then 29 else 28)
  else if m = 4 ∨ m = 6 ∨ m = 9 ∨ m = 11 then 30
  else 31

/-- Python `date.isoformat()`: `YYYY-MM-DD`, zero padded. -/
def Date.isoformat (d : Date) : String :=
  padNat 4 d.year ++ "-" ++ padNat 2 d.month ++ "-" ++ padNat 2 d.day

/-! ## `datetime.strptime(..., "%B %d %Y")` -/

/-- The full month names that `%B` accepts in the C locale (matching is
case-insensitive; abbreviations such as "Jan" are **not** accepted —
those belong to `%b`). -/
def monthNames : List String :=
  ["january", "february", "march", "april", "may", "june",
   "july", "august", "september", "october", "november", "december"]

/-- 1-based month number of a (lowercased) full month name. -/
def monthIndex (s : String) : Option Nat :=
  match monthNames.indexOf? s with
  | some i => some (i + 1)
  | none => none

/-- Numeric value of a digit string (the `%d` field's value). -/
def dayValue (day : String) : Nat :=
  day.data.foldl (fun acc c => acc * 10 + digitVal c) 0

/-- Model of `datetime.strptime(f"{mon} {day} {year}", "%B %d %Y").date()` where
`mon` is a run of ASCII letters and `day` a run of 1-2 ASCII digits (the
shape `_parse_meeting_date` feeds it).  `%B` demands a full month name;
`%d` accepts `3[01]|[12]\d|0[1-9]|[1-9]`, i.e. values 1..31; `%Y`
demands exactly four digits; finally `datetime.date` validates the day
against the month length.  Any failure raises `ValueError`. -/
def strptimeBdY (mon day : String) (year : Nat) : Except String Date :=
  match monthIndex (pyLower mon) with
  | none => .error "time data does not match format"
  | some m =>
    if ¬ (1 ≤ dayValue day ∧ dayValue day ≤ 31) then .error "time data does not match format"
    else if ¬ (1000 ≤ year ∧ year ≤ 9999) then .error "time data does not match format"
    else if dayValue day ≤ daysInMonth year m then .ok ⟨year, m, dayValue day⟩
    else .error "day is out of range for month"

deriving instance DecidableEq for Except

/-! ## `_parse_meeting_date` (collector.py:112-122) -/

/-- The cleaning pipeline applied to the raw header text: normalize
whitespace, keep the text before the first `:` (`split(":")[0]`), turn
en/em dashes into `-`, delete commas. -/
def cleanDateText (raw : String) : String :=
  let cleaned := normalizeWhitespace raw
  let cleaned := String.mk (cleaned.data.takeWhile (· ≠ ':'))
  let cleaned := String.mk (cleaned.data.map
    (fun c => if c = '–' ∨ c = '—' then '-' else c))
  String.mk (cleaned.data.filter (· ≠ ','))

/-- Model of `re.match(r"([A-Za-z]+)\s+([0-9]{1,2})(?:[-–][0-9]{1,2})?", s)`,
returning `(group 1, group 2)`.  The optional trailing day-range group
is non-capturing and `re.match` only anchors at the start, so the match
result is determined by the leading letters, the whitespace run and the
first one-or-two digits. -/
def monthRegexMatch (s : String) : Option (String × String) :=
  let cs := s.data
  let letters := cs.takeWhile isAsciiAlpha
  let rest := cs.dropWhile isAsciiAlpha
  let spaces := rest.takeWhile isSpaceChar
  let rest2 := rest.dropWhile isSpaceChar
  let digits := (rest2.takeWhile isAsciiDigit).take 2
  if letters = [] ∨ spaces = [] ∨ digits = [] then none
  else some (String.mk letters, String.mk digits)

/-- Model of `_parse_meeting_date(raw_text, year)`: clean the text, match the
leading `<Month> <Day>[-<Day>]` pattern (collapsing a day range to its
first day), then parse `f"{month} {day} {year}"` with `strptime`'s
`"%B %d %Y"` format.  A regex mismatch or a `strptime` failure is a
`ValueError` (here: `.error`). -/
def parseMeetingDate (rawText : String) (year : Nat) : Except String Date :=
  match monthRegexMatch (cleanDateText rawText) with
  | none => .error "Could not parse meeting date"
  | some (monthName, dayPart) => strptimeBdY monthName dayPart year

/-! ## An HTML document model (the BeautifulSoup tree)

`BeautifulSoup(html, "html.parser")` produces a tree of tags and text
nodes; the parser never raises on malformed markup.  The collector only
consumes the tree through `find_all`, `find`, `get_text`, `.parents`,
`find_previous` and attribute lookup, all of which are defined below
over this tree.  The soup's document root is an `elem "[document]"`
node wrapping the top-level nodes. -/

inductive Html where
  | text : String → Html
  | elem : String → List (String × String) → List Html → Html

def Html.tagIs (tags : List String) : Html → Bool
  | .text _ => false
  | .elem t _ _ => tags.contains t

/-- Model of `tag.get(attr)`: attribute lookup.  The tree builder fills
a dict in source order, so a duplicated attribute keeps its last value. -/
def Html.attr (n : Html) (key : String) : Option String :=
  match n with
  | .text _ => none
  | .elem _ attrs _ =>
    attrs.foldl (fun acc kv => if kv.1 = key then some kv.2 else acc) none

mutual

/-- All text-node strings of a subtree, in document order
(`Tag._all_strings`). -/
def textFragments : Html → List String
  | .text s => [s]
  | .elem _ _ cs => textFragmentsList cs

/-- Text fragments of a list of sibling subtrees. -/
def textFragmentsList : List Html → List String
  | [] => []
  | c :: cs => textFragments c ++ textFragmentsList cs

end

/-- Model of `get_text()` with the default separator and no stripping. -/
def getText (n : Html) : String :=
  String.join (textFragments n)

/-- Model of `get_text(" ", strip=True)`: strip every fragment, drop the empty
ones, join with a single space. -/
def getTextSpaceStrip (n : Html) : String :=
  String.intercalate " " (((textFragments n).map pyStrip).filter (· ≠ ""))

/-- Model of `get_text(strip=True)`: strip every fragment, drop the empty ones,
join with the empty separator. -/
def getTextStrip (n : Html) : String :=
  String.join (((textFragments n).map pyStrip).filter (· ≠ ""))

/-- Positions in the tree are paths of child indices from the root. -/
abbrev HtmlPath := List Nat

/-- Child node at index `i`. -/
def Html.childAt (n : Html) (i : Nat) : Option Html :=
  match n with
  | .text _ => none
  | .elem _ _ cs => cs.get? i

/-- Node at a path from `root` (`none` if the path dangles). -/
def nodeAt (root : Html) : HtmlPath → Option Html
  | [] => some root
  | i :: p => match root.childAt i with
    | none => none
    | some c => nodeAt c p

mutual

/-- Preorder (document-order) enumeration of a subtree: each node with
its path relative to the subtree root. -/
def preorder : Html → List (HtmlPath × Html)
  | .text s => [([], .text s)]
  | .elem t a cs => ([], .elem t a cs) :: preorderList 0 cs

/-- Preorder enumeration of sibling subtrees starting at child index `i`. -/
def preorderList : Nat → List Html → List (HtmlPath × Html)
  | _, [] => []
  | i, c :: cs =>
    (preorder c).map (fun pn => (i :: pn.1, pn.2)) ++ preorderList (i + 1) cs

end

/-- Model of `soup.find_all(tag)` / `tag.find_all(tag)`: all elements with one of
the given tag names among the *descendants*, in document order, with
their paths relative to `root`. -/
def findAllWithPaths (root : Html) (tags : List String) : List (HtmlPath × Html) :=
  (preorder root).filter (fun pn => pn.1 ≠ [] ∧ pn.2.tagIs tags)

/-- Model of `tag.find(name)`: the first matching descendant, in document order. -/
def findFirst (root : Html) (tags : List String) : Option Html :=
  ((preorder root).find? (fun pn => pn.1 ≠ [] ∧ pn.2.tagIs tags)).map (·.2)

/-- Model of `row.parents`: the ancestors of the node at `p`, nearest first,
ending with the document root (BeautifulSoup's `.parents` ends at the
`BeautifulSoup` object itself). -/
def ancestorPaths (p : HtmlPath) : List HtmlPath :=
  (List.range p.length).map (fun k => p.take (p.length - 1 - k))

/-! ## Year inference (`_extract_year_from_text`, `_find_year_for_row`) -/

/-- Model of `re.search(r"(20\d{2})", text)`: the leftmost four-character window
`20dd`; its numeric value. -/
def findYearInChars : List Char → Option Nat
  | c0 :: c1 :: c2 :: c3 :: rest =>
    if c0 = '2' ∧ c1 = '0' ∧ isAsciiDigit c2 ∧ isAsciiDigit c3 then
      some (2000 + digitVal c2 * 10 + digitVal c3)
    else findYearInChars (c1 :: c2 :: c3 :: rest)
  | _ => none

/-- Model of `_extract_year_from_text` (collector.py:81-85). -/
def extractYearFromText (s : String) : Option Nat :=
  findYearInChars s.data

/-- The candidate text sources of one ancestor: its `id`, `data-year`
and `aria-labelledby` attributes (those present), then its full visible
text (`get_text(" ", strip=True)`). -/
def candidateSources (n : Html) : List String :=
  (["id", "data-year", "aria-labelledby"].filterMap n.attr) ++ [getTextSpaceStrip n]

/-- Model of `_find_year_for_row` (collector.py:88-100): walk the ancestors,
nearest first; the first candidate source yielding a `20dd` year wins. -/
def findYearForRow (root : Html) (rowPath : HtmlPath) : Option Nat :=
  (ancestorPaths rowPath).findSome? (fun ap =>
    match nodeAt root ap with
    | none => none
    | some anc => (candidateSources anc).findSome? extractYearFromText)

/-! ## Context label (`_find_context_label`) -/

/-- Model of `row.find_previous(["h2","h3","h4","h5"])`: the last element before
the row in document order whose tag is a heading (ancestors of the row
precede it in document order and are searched too). -/
def findPreviousHeading (root : Html) (rowPath : HtmlPath) : Option Html :=
  ((((preorder root).takeWhile (fun pn => pn.1 ≠ rowPath)).filter
      (fun pn => pn.2.tagIs ["h2", "h3", "h4", "h5"])).getLast?).map (·.2)

/-- Model of `_find_context_label` (collector.py:103-109). -/
def findContextLabel (root : Html) (rowPath : HtmlPath) : Option String :=
  match findPreviousHeading root rowPath with
  | none => none
  | some heading =>
    let text := normalizeWhitespace (getText heading)
    if text ≠ "" then some text else none

/-! ## Link extraction (`_extract_links`) -/

def CALENDAR_URL : String :=
  "https://www.federalreserve.gov/monetarypolicy/fomccalendars.htm"

def isSchemeChar (c : Char) : Bool :=
  isAsciiAlpha c ∨ isAsciiDigit c ∨ c = '+' ∨ c = '-' ∨ c = '.'

/-- Does the string start with a URL scheme (`letter(letter|digit|+|-|.)*:`)? -/
def hasScheme (s : String) : Bool :=
  match s.data with
  | [] => false
  | c :: _ =>
    isAsciiAlpha c ∧
      (s.data.dropWhile isSchemeChar).headD ' ' = ':'

/-- Model of `urllib.parse.urljoin(CALENDAR_URL, href)`, modelled for the href
shapes the calendar page uses: absolute URLs are kept; `//…` gets the
base scheme; `/…` is resolved against the host; `#…`/`?…` extend the
base URL; other relative paths replace the final path segment of the
base (dot-segment normalization is not modelled — the page's hrefs
contain none). -/
def urljoinCalendar (href : String) : String :=
  if hasScheme href then href
  else if ['/', '/'].isPrefixOf href.data then "https:" ++ href
  else if ['/'].isPrefixOf href.data then "https://www.federalreserve.gov" ++ href
  else if ['#'].isPrefixOf href.data ∨ ['?'].isPrefixOf href.data then CALENDAR_URL ++ href
  else "https://www.federalreserve.gov/monetarypolicy/" ++ href

/-- One step of `_extract_links`' loop over `cell.find_all("a")`:
links without an `href` (or with an empty one — `if not href`) are
skipped; a link whose lowercased visible text contains `"statement"`
(re)sets `statement_url`, one containing `"projection"` (re)sets
`projection_url` — both checks run, last match wins. -/
def extractLinksStep (acc : Option String × Option String) (link : Html) :
    Option String × Option String :=
  match link.attr "href" with
  | none => acc
  | some href =>
    if href = "" then acc
    else
      (if containsSub "statement" (pyLower (getTextStrip link)) then
        some (urljoinCalendar href) else acc.1,
       if containsSub "projection" (pyLower (getTextStrip link)) then
        some (urljoinCalendar href) else acc.2)

/-- Model of `_extract_links` (collector.py:125-138). -/
def extractLinks (cell : Html) : Option String × Option String :=
  ((findAllWithPaths cell ["a"]).map (·.2)).foldl extractLinksStep (none, none)

/-! ## `MeetingDocuments` (collector.py:19-33) -/

structure MeetingDocuments where
  meeting_date : Date
  label : String
  statement_url : Option String
  projection_url : Option String
  source_url : String
  deriving DecidableEq, Repr

def MeetingDocuments.meeting_year (m : MeetingDocuments) : Nat :=
  m.meeting_date.year

/-- Model of `filename_stub` (collector.py:31-33):
`re.sub(r"[^a-z0-9-]", "", label.lower().replace(" ", "-")) or "fomc"`,
prefixed with the ISO date and an underscore. -/
def MeetingDocuments.filename_stub (m : MeetingDocuments) : String :=
  let hyphened := (pyLower m.label).data.map (fun c => if c = ' ' then '-' else c)
  let filtered := hyphened.filter
    (fun c => ('a' ≤ c ∧ c ≤ 'z') ∨ isAsciiDigit c ∨ c = '-')
  let labelPart := if filtered = [] then "fomc" else String.mk filtered
  m.meeting_date.isoformat ++ "_" ++ labelPart

/-! ## `parse_calendar` (collector.py:141-175) -/

/-- Python's `date` ordering: lexicographic on (year, month, day). -/
def Date.le (a b : Date) : Prop :=
  a.year < b.year ∨ (a.year = b.year ∧
    (a.month < b.month ∨ (a.month = b.month ∧ a.day ≤ b.day)))

instance : DecidableRel Date.le := fun a b => by
  unfold Date.le; infer_instance

/-- The sort relation of `meetings.sort(key=lambda m: m.meeting_date)`. -/
def meetingLe (a b : MeetingDocuments) : Prop :=
  Date.le a.meeting_date b.meeting_date

instance : DecidableRel meetingLe := fun a b => by
  unfold meetingLe; infer_instance

instance : IsTotal MeetingDocuments meetingLe :=
  ⟨fun a b => by unfold meetingLe Date.le; omega⟩

instance : IsTrans MeetingDocuments meetingLe :=
  ⟨fun a b c => by unfold meetingLe Date.le; omega⟩

/-- Steps of the row loop after the year-window check passed
(collector.py:155-173): parse the header-cell date (the
`try/except ValueError: continue` is the `.error => none` branch),
classify the links, pick the label, build the record. -/
def processWithYear (root : Html) (rowPath : HtmlPath) (dateCell linkCell : Html)
    (year : Nat) : Option MeetingDocuments :=
  match parseMeetingDate (normalizeWhitespace (getText dateCell)) year with
  | .error _ => none
  | .ok meetingDate =>
    let links := extractLinks linkCell
    let contextLabel := (findContextLabel root rowPath).getD ("FOMC " ++ natRepr year)
    let description := normalizeWhitespace (getText linkCell)
    let label := if description ≠ "" then description else contextLabel
    some { meeting_date := meetingDate, label := label,
           statement_url := links.1, projection_url := links.2,
           source_url := CALENDAR_URL }

/-- Year inference and window check for a row that has both cells
(collector.py:152-154): skip when no ancestor yields a year or the
year falls before the window. -/
def processQualifying (root : Html) (minYear : Int) (rowPath : HtmlPath)
    (dateCell linkCell : Html) : Option MeetingDocuments :=
  match findYearForRow root rowPath with
  | none => none
  | some year =>
    if (year : Int) < minYear then none
    else processWithYear root rowPath dateCell linkCell year

/-- The body of `parse_calendar`'s `for row in soup.find_all("tr")`
loop for one row (collector.py:147-173): `none` when the row is
skipped (`continue`), `some` when a `MeetingDocuments` is appended.
A row qualifies only with both a `th` and a `td` cell. -/
def processRow (root : Html) (minYear : Int) (pn : HtmlPath × Html) :
    Option MeetingDocuments :=
  match findFirst pn.2 ["th"], findFirst pn.2 ["td"] with
  | some dateCell, some linkCell =>
    processQualifying root minYear pn.1 dateCell linkCell
  | _, _ => none

/-- The `meetings` list right before the final sort: the qualifying
rows, in document (encounter) order. -/
def scanRows (root : Html) (minYear : Int) : List MeetingDocuments :=
  (findAllWithPaths root ["tr"]).filterMap (processRow root minYear)

/-- Model of `parse_calendar(html, max_years)` (collector.py:141-175) over the
parsed document tree.  `date.today().year` is passed explicitly as
`currentYear`.  Python's `list.sort` is stable and sorts ascending by
the key; `List.insertionSort` with the total preorder `meetingLe` is
extensionally the same sort. -/
def parseCalendar (root : Html) (maxYears : Int) (currentYear : Int) :
    List MeetingDocuments :=
  List.insertionSort meetingLe (scanRows root (currentYear - maxYears + 1))

/-! ## HTTP and file-system model for the download path

`requests.get` is an oracle from URLs to responses; the file system is
an explicit state record.  A `RequestException` (network failure) and a
non-2xx status (`raise_for_status`) are both the `err` outcome — the
code treats them identically (collector.py:180-184). -/

structure HttpResponse where
  contentType : String
  body : String
  deriving DecidableEq, Repr

inductive FetchResult where
  | err
  | ok (resp : HttpResponse)
  deriving DecidableEq, Repr

abbrev FetchOracle := String → FetchResult

structure FsState where
  /-- Files written so far: path ↦ content, in write order. -/
  files : List (String × String)
  /-- `download_log.csv` rows; `none` models an absent file. -/
  csvLog : Option (List (List String))
  /-- Lines of `missing_projections.txt`. -/
  missingLog : List String
  deriving DecidableEq, Repr

def emptyFs : FsState := ⟨[], none, []⟩

/-- Model of `"pdf" in content_type.lower()` (collector.py:185-186). -/
def isPdfContentType (ct : String) : Bool :=
  containsSub "pdf" (pyLower ct)

/-- Model of `_download_file(url, destination)` (collector.py:178-190): on a
fetch error return `None` and write nothing; on success write the
payload only when the declared content type mentions `pdf`, else
return `None`.  (The `destination.parent.mkdir` call only creates
directories, never files, and is not modelled.) -/
def downloadFile (url dest : String) (fetch : FetchOracle) (σ : FsState) :
    Option String × FsState :=
  match fetch url with
  | .err => (none, σ)
  | .ok resp =>
    if isPdfContentType resp.contentType then
      (some dest, { σ with files := σ.files ++ [(dest, resp.body)] })
    else (none, σ)

/-! ## `DownloadLogger` (collector.py:36-74) -/

def csvHeader : List String :=
  ["timestamp", "meeting_date", "meeting_label",
   "statement_path", "projection_path", "source_url"]

/-- Model of `_ensure_headers` (collector.py:43-57): create the CSV with its
header row if the file does not exist. -/
def ensureHeaders (σ : FsState) : FsState :=
  match σ.csvLog with
  | none => { σ with csvLog := some [csvHeader] }
  | some _ => σ

/-- Model of `DownloadLogger.record` (collector.py:59-74); `ts` is
`datetime.utcnow().isoformat()`.  Opening in append mode creates the
file when missing, hence the `getD []`.  `Path.as_posix()` on the
slash-joined paths built here is the identity. -/
def loggerRecord (ts : String) (m : MeetingDocuments)
    (statementPath projectionPath : Option String) (σ : FsState) : FsState :=
  let row := [ts, m.meeting_date.isoformat, m.label,
              statementPath.getD "missing", projectionPath.getD "missing",
              m.source_url]
  let σ' := { σ with csvLog := some (σ.csvLog.getD [] ++ [row]) }
  match projectionPath with
  | none =>
    { σ' with missingLog := σ'.missingLog ++
        [m.meeting_date.isoformat ++ " " ++ m.label ++ ": missing projection materials"] }
  | some _ => σ'

/-! ## `download_documents` (collector.py:193-207) -/

/-- The loop body for one meeting: fetch each of the two documents that
has a URL (`if meeting.statement_url:` — an empty-string URL is falsy
and skipped), then log the outcome. -/
def processMeeting (baseDir : String) (fetch : FetchOracle) (ts : String)
    (σ : FsState) (m : MeetingDocuments) : FsState :=
  let yearDir := baseDir ++ "/" ++ natRepr m.meeting_year
  let stub := m.filename_stub
  let stepSt :=
    match m.statement_url with
    | some url =>
      if url ≠ "" then
        downloadFile url (yearDir ++ "/" ++ stub ++ "_statement.pdf") fetch σ
      else (none, σ)
    | none => (none, σ)
  let stepPr :=
    match m.projection_url with
    | some url =>
      if url ≠ "" then
        downloadFile url (yearDir ++ "/" ++ stub ++ "_projections.pdf") fetch stepSt.2
      else (none, stepSt.2)
    | none => (none, stepSt.2)
  loggerRecord ts m stepSt.1 stepPr.1 stepPr.2

/-- The meeting loop, also building the `successful` list.  `tss i` is
the timestamp `datetime.utcnow()` observed by the `i`-th `record`
call. -/
def downloadLoop (baseDir : String) (fetch : FetchOracle) (tss : Nat → String) :
    Nat → List MeetingDocuments → FsState → List MeetingDocuments × FsState
  | _, [], σ => ([], σ)
  | i, m :: ms, σ =>
    let σ' := processMeeting baseDir fetch (tss i) σ m
    let rest := downloadLoop baseDir fetch tss (i + 1) ms σ'
    (m :: rest.1, rest.2)

/-- Model of `download_documents(meetings, base_dir)` (collector.py:193-207):
construct the logger (ensuring the CSV header), process every meeting,
return the `successful` list and the final file-system state. -/
def downloadDocuments (ms : List MeetingDocuments) (baseDir : String)
    (fetch : FetchOracle) (tss : Nat → String) (σ : FsState) :
    List MeetingDocuments × FsState :=
  downloadLoop baseDir fetch tss 0 ms (ensureHeaders σ)

/-! ## The catalog API (`src/fomc/server.py`) -/

/-- One row of a well-formed `download_log.csv` as `csv.DictReader`
yields it (the six columns written by `DownloadLogger`; the timestamp
column is not read by the server). -/
structure CsvRow where
  timestamp : String
  meeting_date : String
  meeting_label : String
  statement_path : String
  projection_path : String
  source_url : String
  deriving DecidableEq, Repr

structure MeetingEntry where
  meeting_date : String
  meeting_label : String
  statement_path : String
  projection_path : String
  source_url : String
  deriving DecidableEq, Repr

/-- Model of `_load_entries` (server.py:21-37): an absent log file yields `[]`;
otherwise every data row becomes a `MeetingEntry`. -/
def loadEntries (logFile : Option (List CsvRow)) : List MeetingEntry :=
  match logFile with
  | none => []
  | some rows =>
    rows.map (fun r =>
      { meeting_date := r.meeting_date, meeting_label := r.meeting_label,
        statement_path := r.statement_path, projection_path := r.projection_path,
        source_url := r.source_url })

/-- Model of `entry.meeting_date.split("-")[0]` (server.py:43). -/
def yearKey (e : MeetingEntry) : String :=
  String.mk (e.meeting_date.data.takeWhile (· ≠ '-'))

/-- Model of `grouped.setdefault(year, []).append(entry)`: append to the list at
the key if present (keys keep their insertion order), else add a new
key at the end. -/
def addToGroup (grouped : List (String × List MeetingEntry)) (y : String)
    (e : MeetingEntry) : List (String × List MeetingEntry) :=
  match grouped with
  | [] => [(y, [e])]
  | (k, v) :: rest =>
    if k = y then (k, v ++ [e]) :: rest
    else (k, v) :: addToGroup rest y e

/-- The sort relation of `values.sort(key=lambda item: item.meeting_date)`
(Python string comparison is lexicographic by code point, as is
Lean's). -/
def entryLe (a b : MeetingEntry) : Prop :=
  a.meeting_date ≤ b.meeting_date

instance : DecidableRel entryLe := fun a b => by
  unfold entryLe; infer_instance

instance : IsTotal MeetingEntry entryLe :=
  ⟨fun a b => le_total a.meeting_date b.meeting_date⟩

instance : IsTrans MeetingEntry entryLe :=
  ⟨fun _ _ _ h1 h2 => le_trans h1 h2⟩

/-- The sort relation of
`sorted(grouped.items(), key=lambda kv: kv[0], reverse=True)`:
descending by key. -/
def pairGe (a b : String × List MeetingEntry) : Prop :=
  b.1 ≤ a.1

instance : DecidableRel pairGe := fun a b => by
  unfold pairGe; infer_instance

instance : IsTotal (String × List MeetingEntry) pairGe :=
  ⟨fun a b => le_total b.1 a.1⟩

instance : IsTrans (String × List MeetingEntry) pairGe :=
  ⟨fun _ _ _ h1 h2 => le_trans h2 h1⟩

/-- Model of `_group_by_year` (server.py:40-47): group in encounter order, sort
each year's list ascending by date, order the years descending. -/
def groupByYear (entries : List MeetingEntry) : List (String × List MeetingEntry) :=
  let grouped := entries.foldl (fun g e => addToGroup g (yearKey e) e) []
  let grouped := grouped.map (fun kv => (kv.1, List.insertionSort entryLe kv.2))
  List.insertionSort pairGe grouped

structure ApiError where
  status : Nat
  detail : String
  deriving DecidableEq, Repr

/-- Model of `GET /years` (server.py:61-65). -/
def listYears (logFile : Option (List CsvRow)) : List String :=
  (groupByYear (loadEntries logFile)).map (·.1)

/-- Model of `GET /statements` (server.py:68-72). -/
def allStatements (logFile : Option (List CsvRow)) :
    List (String × List MeetingEntry) :=
  groupByYear (loadEntries logFile)

/-- Model of `GET /statements/{year}` (server.py:75-81): 404 when the year is
not a key of the grouping, else that year's list. -/
def statementsByYear (logFile : Option (List CsvRow)) (year : String) :
    Except ApiError (List MeetingEntry) :=
  match (groupByYear (loadEntries logFile)).find? (fun kv => kv.1 = year) with
  | none => .error ⟨404, "No statements found for " ++ year⟩
  | some kv => .ok kv.2

/-! ## Spec-side definitions (for refinement statements)

These two follow the specification's words for link classification
("the resolved absolute URL of the last hyperlink whose visible text
case-insensitively contains …"), to be compared with `extractLinks`. -/

/-- View of one anchor as a hyperlink: `some (text, href)` when it
carries a non-empty `href` (with its visible text lowercased), `none`
when `_extract_links` would skip it. -/
def linkPair (a : Html) : Option (String × String) :=
  match a.attr "href" with
  | none => none
  | some href =>
    if href = "" then none
    else some (pyLower (getTextStrip a), href)

/-- The hyperlinks of a data cell: its anchor descendants carrying a
non-empty `href`, as (lowercased visible text, raw href) pairs in
document order. -/
def cellHyperlinks (cell : Html) : List (String × String) :=
  ((findAllWithPaths cell ["a"]).map (·.2)).filterMap linkPair

/-- Per the spec: the resolved absolute URL of the last hyperlink whose
(lowercased) text contains `word`. -/
def lastMatchingUrl (word : String) (links : List (String × String)) :
    Option String :=
  ((links.filter (fun l => containsSub word l.1)).getLast?).map
    (fun l => urljoinCalendar l.2)

/-- The per-link contribution to one category: the resolved URL when
the text matches, else nothing. -/
def linkHit (word : String) (l : String × String) : Option String :=
  if containsSub word l.1 then some (urljoinCalendar l.2) else none

/-- Helper: `extractLinksStep` restricted to the (text, href) pairs of the
hyperlinks that are not skipped. -/
def pairStep (acc : Option String × Option String) (l : String × String) :
    Option String × Option String :=
  (if containsSub "statement" l.1 then some (urljoinCalendar l.2) else acc.1,
   if containsSub "projection" l.1 then some (urljoinCalendar l.2) else acc.2)

/-! ## Concrete inputs used by the counterexamples and witnesses -/

/-- A qualifying calendar row whose header cell reads "Jan 30-31". -/
def exRowJan : Html :=
  .elem "tr" []
    [.elem "th" [] [.text "Jan 30-31"],
     .elem "td" [] [.text "FOMC Meeting"]]

/-- A calendar document whose only row is `exRowJan`, nested under an
ancestor whose `id` attribute carries the year 2024. -/
def exTreeJan : Html :=
  .elem "[document]" []
    [.elem "div" [("id", "2024")]
       [.elem "table" [] [exRowJan]]]

/-- A row whose header cell carries no parsable date at all. -/
def exRowTBD : Html :=
  .elem "tr" []
    [.elem "th" [] [.text "TBD"],
     .elem "td" [] [.text "notation pending"]]

def exTreeTBD : Html :=
  .elem "[document]" []
    [.elem "div" [("id", "2024")]
       [.elem "table" [] [exRowTBD]]]

/-- The spec's §4.1/§8 example label on its example date. -/
def exMeetingC2 : MeetingDocuments :=
  { meeting_date := ⟨2024, 1, 30⟩, label := "FOMC Meeting (Jan 30-31)",
    statement_url := none, projection_url := none, source_url := CALENDAR_URL }

/-- A meeting with both document URLs present. -/
def exMeetingC3 : MeetingDocuments :=
  { meeting_date := ⟨2024, 1, 30⟩, label := "FOMC Meeting",
    statement_url := some "https://www.federalreserve.gov/a.pdf",
    projection_url := some "https://www.federalreserve.gov/b.pdf",
    source_url := CALENDAR_URL }

/-- An oracle on which every fetch fails. -/
def fetchFail : FetchOracle := fun _ => .err

/-- An oracle on which every fetch succeeds with a PDF payload. -/
def fetchPdf : FetchOracle := fun _ => .ok ⟨"application/pdf", "%PDF-1.7"⟩

/-- An oracle answering 200 OK with an HTML error page. -/
def fetchHtml : FetchOracle := fun _ => .ok ⟨"text/html; charset=utf-8", "<html>"⟩

def tssConst : Nat → String := fun _ => "2025-01-01T00:00:00"

/-- The data cell of the spec's link-classification example. -/
def exCellC7 : Html :=
  .elem "td" []
    [.elem "a" [("href", "/newsevents/pressreleases/monetary20240131a.htm")]
       [.text "Statement"],
     .elem "a" [("href", "/monetarypolicy/fomcprojtabl20240131.htm")]
       [.text "Press Conference Projection Materials"]]

/-- A one-row CSV log with a 2024 entry. -/
def exRow2024Csv : CsvRow :=
  { timestamp := "2025-01-01T00:00:00", meeting_date := "2024-01-30",
    meeting_label := "FOMC Meeting", statement_path := "missing",
    projection_path := "missing", source_url := CALENDAR_URL }

/-- Filesystem-safe character set: what a `filename_stub` may contain
(lower-case letter, digit, hyphen, underscore). -/
def filenameSafeChar (c : Char) : Bool :=
  ('a' ≤ c ∧ c ≤ 'z') ∨ ('0' ≤ c ∧ c ≤ '9') ∨ c = '-' ∨ c = '_'

/-!
# Theorems

One theorem per claim (C1-C10), with shared helper lemmas.
-/

/-! ## Helper lemmas: decimal digits and `isoformat` -/

lemma digitChar_bound {k : Nat} (h : k < 10) :
    '0' ≤ Char.ofNat (48 + k) ∧ Char.ofNat (48 + k) ≤ '9' := by
  interval_cases k <;> exact ⟨by decide, by decide⟩

lemma digitsAux_bound (fuel : Nat) : ∀ n, ∀ c ∈ digitsAux fuel n, '0' ≤ c ∧ c ≤ '9' := by
  induction fuel with
  | zero => intro n c hc; simp [digitsAux] at hc
  | succ fuel ih =>
    intro n c hc
    unfold digitsAux at hc
    by_cases hn : n < 10
    · rw [if_pos hn] at hc
      simp only [List.mem_singleton] at hc
      subst hc
      exact digitChar_bound hn
    · rw [if_neg hn] at hc
      rcases List.mem_append.mp hc with h | h
      · exact ih _ c h
      · simp only [List.mem_singleton] at h
        subst h
        exact digitChar_bound (Nat.mod_lt _ (by norm_num))

lemma natDigits_bound (n : Nat) : ∀ c ∈ natDigits n, '0' ≤ c ∧ c ≤ '9' :=
  digitsAux_bound (n + 1) n

lemma padNat_bound (w n : Nat) : ∀ c ∈ (padNat w n).data, '0' ≤ c ∧ c ≤ '9' := by
  intro c hc
  unfold padNat at hc
  simp only at hc
  rcases List.mem_append.mp hc with h | h
  · rw [List.eq_of_mem_replicate h]
    exact ⟨le_refl _, by decide⟩
  · exact natDigits_bound n c h

lemma isoformat_bound (d : Date) :
    ∀ c ∈ d.isoformat.data, ('0' ≤ c ∧ c ≤ '9') ∨ c = '-' := by
  intro c hc
  unfold Date.isoformat at hc
  simp only [String.data_append] at hc
  rcases List.mem_append.mp hc with hc | hc
  · rcases List.mem_append.mp hc with hc | hc
    · rcases List.mem_append.mp hc with hc | hc
      · rcases List.mem_append.mp hc with hc | hc
        · exact .inl (padNat_bound _ _ c hc)
        · simp at hc; exact .inr hc
      · exact .inl (padNat_bound _ _ c hc)
    · simp at hc; exact .inr hc
  · exact .inl (padNat_bound _ _ c hc)

/-! ## C2: `filename_stub` -/

/-- C2 counterexample: on label "FOMC Meeting (Jan 30-31)" and date
2024-01-30, `filename_stub` does **not** return
"2024-01-30_fomc-meeting-jan-31" (the digits "30-" of the day range
survive the `[^a-z0-9-]` deletion; only the parentheses are removed). -/
theorem C2_counterexample :
    exMeetingC2.filename_stub ≠ "2024-01-30_fomc-meeting-jan-31" := by
  decide

/-- C2 (amended): `filename_stub` is a deterministic function of
`meeting_date` and `label` producing only filesystem-safe characters;
for label "FOMC Meeting (Jan 30-31)" and meeting_date 2024-01-30 it
returns the stub "2024-01-30_fomc-meeting-jan-30-31". -/
theorem C2_amended :
    exMeetingC2.filename_stub = "2024-01-30_fomc-meeting-jan-30-31" ∧
    ∀ m : MeetingDocuments, m.filename_stub.data.all filenameSafeChar = true := by
  refine ⟨by decide, ?_⟩
  intro m
  rw [List.all_eq_true]
  intro c hc
  unfold MeetingDocuments.filename_stub at hc
  simp only [String.data_append] at hc
  rcases List.mem_append.mp hc with hc | hc
  · rcases List.mem_append.mp hc with hc | hc
    · rcases isoformat_bound _ c hc with h | h
      · exact decide_eq_true (.inr (.inl h))
      · exact decide_eq_true (.inr (.inr (.inl h)))
    · simp at hc
      subst hc
      decide
  · split at hc
    · fin_cases hc <;> decide
    · have := List.mem_filter.mp hc
      have hp := of_decide_eq_true this.2
      rcases hp with h | h | h
      · exact decide_eq_true (.inl h)
      · exact decide_eq_true (.inr (.inl (of_decide_eq_true (by
          unfold isAsciiDigit at h
          exact h))))
      · exact decide_eq_true (.inr (.inr (.inl h)))

/-! ## C3: the result of `download_documents` -/

/-- The `successful` list accumulated by the meeting loop is always the
full input list, whatever the downloads did. -/
lemma downloadLoop_fst (baseDir : String) (fetch : FetchOracle) (tss : Nat → String) :
    ∀ ms : List MeetingDocuments, ∀ i σ, (downloadLoop baseDir fetch tss i ms σ).1 = ms := by
  intro ms
  induction ms with
  | nil => intro i σ; rfl
  | cons m ms ih =>
    intro i σ
    unfold downloadLoop
    simp only [List.cons.injEq, true_and]
    exact ih _ _

/-- C3 counterexample: the returned value of `download_documents` does
not describe the set of paths written.  On the same single-meeting input
(both URLs present), an all-failing oracle writes no file while an
all-PDF oracle writes two files, yet the returned lists are identical —
and neither mentions a path. -/
theorem C3_counterexample :
    (downloadDocuments [exMeetingC3] "data/fomc_statements" fetchFail tssConst emptyFs).2.files
      = [] ∧
    (downloadDocuments [exMeetingC3] "data/fomc_statements" fetchPdf tssConst emptyFs).2.files
      = [("data/fomc_statements/2024/2024-01-30_fomc-meeting_statement.pdf", "%PDF-1.7"),
         ("data/fomc_statements/2024/2024-01-30_fomc-meeting_projections.pdf", "%PDF-1.7")] ∧
    (downloadDocuments [exMeetingC3] "data/fomc_statements" fetchFail tssConst emptyFs).1
      = (downloadDocuments [exMeetingC3] "data/fomc_statements" fetchPdf tssConst emptyFs).1 := by
  decide

/-- C3 (amended): `download_documents` returns the input meeting list
unchanged — one entry per meeting, regardless of which downloads
succeeded; the paths actually written are recorded in the CSV log
rows, not in the return value. -/
theorem C3_amended :
    ∀ (ms : List MeetingDocuments) (baseDir : String) (fetch : FetchOracle)
      (tss : Nat → String) (σ : FsState),
      (downloadDocuments ms baseDir fetch tss σ).1 = ms := by
  intro ms baseDir fetch tss σ
  unfold downloadDocuments
  exact downloadLoop_fst baseDir fetch tss ms 0 _

/-! ## C4: `_download_file` writes only verified PDFs -/

/-- C4: a file is written exactly when the fetch succeeds *and* the
declared content type mentions "pdf"; on a network/HTTP failure or a
non-PDF content type (even under HTTP 200) the state is unchanged and
`None` is returned — no exception escapes (the embedding is a total
function into `Option`). -/
theorem C4_theorem :
    ∀ (url dest : String) (fetch : FetchOracle) (σ : FsState),
      (fetch url = .err → downloadFile url dest fetch σ = (none, σ)) ∧
      (∀ resp, fetch url = .ok resp → isPdfContentType resp.contentType = false →
        downloadFile url dest fetch σ = (none, σ)) ∧
      (∀ resp, fetch url = .ok resp → isPdfContentType resp.contentType = true →
        downloadFile url dest fetch σ =
          (some dest, { σ with files := σ.files ++ [(dest, resp.body)] })) := by
  intro url dest fetch σ
  refine ⟨?_, ?_, ?_⟩
  · intro h; unfold downloadFile; rw [h]
  · intro resp h hct; unfold downloadFile; rw [h]; simp [hct]
  · intro resp h hct; unfold downloadFile; rw [h]; simp [hct]

/-- Witness for C4 at concrete inputs: a failing fetch, an HTML page
under status 200, and a real PDF. -/
theorem C4_witness :
    downloadFile "u" "d" fetchFail emptyFs = (none, emptyFs) ∧
    downloadFile "u" "d" fetchHtml emptyFs = (none, emptyFs) ∧
    downloadFile "u" "d" fetchPdf emptyFs =
      (some "d", { emptyFs with files := [("d", "%PDF-1.7")] }) :=
  ⟨( C4_theorem "u" "d" fetchFail emptyFs).1 rfl,
   ( C4_theorem "u" "d" fetchHtml emptyFs).2.1 ⟨"text/html; charset=utf-8", "<html>"⟩ rfl
     (by decide),
   ( C4_theorem "u" "d" fetchPdf emptyFs).2.2 ⟨"application/pdf", "%PDF-1.7"⟩ rfl
     (by decide)⟩

/-! ## C8: `DownloadLogger.record` -/

/-- C8: every `record` call appends exactly one CSV row
`[timestamp, meeting date, label, statement path or "missing",
projection path or "missing", source url]`, and appends the line
`"<date> <label>: missing projection materials"` to the
missing-projections file exactly when the projection path is absent;
nothing else changes. -/
theorem C8_theorem :
    ∀ (ts : String) (m : MeetingDocuments) (sp pp : Option String) (σ : FsState),
      (loggerRecord ts m sp pp σ).csvLog =
        some (σ.csvLog.getD [] ++
          [[ts, m.meeting_date.isoformat, m.label,
            sp.getD "missing", pp.getD "missing", m.source_url]]) ∧
      (loggerRecord ts m sp pp σ).missingLog =
        σ.missingLog ++
          (if pp.isNone then
            [m.meeting_date.isoformat ++ " " ++ m.label ++ ": missing projection materials"]
          else []) ∧
      (loggerRecord ts m sp pp σ).files = σ.files := by
  intro ts m sp pp σ
  cases pp <;> exact ⟨rfl, by simp [loggerRecord], rfl⟩

/-! ## C10: the API on an absent log file -/

/-- C10: when the CSV log does not exist, loading yields the empty
list, `/years` returns `[]`, `/statements` returns an empty grouping,
and `/statements/{year}` answers 404 for every year. -/
theorem C10_theorem :
    loadEntries none = [] ∧
    listYears none = [] ∧
    allStatements none = [] ∧
    ∀ year : String,
      statementsByYear none year = .error ⟨404, "No statements found for " ++ year⟩ := by
  exact ⟨rfl, rfl, rfl, fun year => rfl⟩

/-! ## Helper lemmas: reducing `parseMeetingDate` -/

lemma parseMeetingDate_regex_none (raw : String) (year : Nat)
    (h : monthRegexMatch (cleanDateText raw) = none) :
    parseMeetingDate raw year = .error "Could not parse meeting date" := by
  unfold parseMeetingDate; rw [h]

lemma parseMeetingDate_regex_some (raw : String) (year : Nat) {mon day : String}
    (h : monthRegexMatch (cleanDateText raw) = some (mon, day)) :
    parseMeetingDate raw year = strptimeBdY mon day year := by
  unfold parseMeetingDate; rw [h]

lemma strptimeBdY_noMonth {mon : String} (day : String) (year : Nat)
    (h : monthIndex (pyLower mon) = none) :
    strptimeBdY mon day year = .error "time data does not match format" := by
  unfold strptimeBdY; rw [h]

lemma strptimeBdY_someMonth {mon : String} {m : Nat} (day : String) (year : Nat)
    (h : monthIndex (pyLower mon) = some m) :
    strptimeBdY mon day year =
      (if ¬ (1 ≤ dayValue day ∧ dayValue day ≤ 31) then
        .error "time data does not match format"
      else if ¬ (1000 ≤ year ∧ year ≤ 9999) then
        .error "time data does not match format"
      else if dayValue day ≤ daysInMonth year m then .ok ⟨year, m, dayValue day⟩
      else .error "day is out of range for month") := by
  unfold strptimeBdY; rw [h]

lemma processRow_qualifying {pn : HtmlPath × Html} {dateCell linkCell : Html}
    (root : Html) (minYear : Int)
    (hth : findFirst pn.2 ["th"] = some dateCell)
    (htd : findFirst pn.2 ["td"] = some linkCell) :
    processRow root minYear pn =
      processQualifying root minYear pn.1 dateCell linkCell := by
  unfold processRow; rw [hth, htd]

lemma strptimeBdY_ok {mon : String} {m d : Nat} {day : String} {year : Nat}
    (hm : monthIndex (pyLower mon) = some m)
    (hdv : dayValue day = d)
    (hd : 1 ≤ d ∧ d ≤ 31)
    (hy : 1000 ≤ year ∧ year ≤ 9999)
    (hdm : d ≤ daysInMonth year m) :
    strptimeBdY mon day year = .ok ⟨year, m, d⟩ := by
  rw [strptimeBdY_someMonth day year hm, hdv]
  rw [if_neg (not_not_intro hd), if_neg (not_not_intro hy), if_pos hdm]

/-! ## C1: the "Jan 30-31" header row -/

/-- C1 counterexample: a qualifying row with header-cell text
"Jan 30-31" under an ancestor carrying year 2024 yields **no** meeting
record: `strptime`'s `%B` directive only accepts full month names, so
`_parse_meeting_date` raises `ValueError` on the abbreviation "Jan"
and `parse_calendar` drops the row. -/
theorem C1_counterexample :
    (findFirst exRowJan ["th"]).isSome = true ∧
    (findFirst exRowJan ["td"]).isSome = true ∧
    findYearForRow exTreeJan [0, 0, 0] = some 2024 ∧
    (parseMeetingDate "Jan 30-31" 2024).isOk = false ∧
    parseCalendar exTreeJan 10 2025 = [] := by
  decide

/-- C1 (amended): a leading `<Month> <Day>[-<Day>]` day range in the
header text collapses to its first day combined with the inferred
year, provided the month is written out in full: "January 30-31" with
inferred year 2024 (or any four-digit year) yields 2024-01-30, and any
successful parse carries exactly the inferred year.  An abbreviated
month such as "Jan" fails the `%B` format and the row is dropped. -/
theorem C1_amended :
    (∀ year : Nat, 1000 ≤ year → year ≤ 9999 →
      parseMeetingDate "January 30-31" year = .ok ⟨year, 1, 30⟩) ∧
    ∀ (raw : String) (year : Nat) (r : Date),
      parseMeetingDate raw year = .ok r →
        r.year = year ∧
        ∃ mon day, monthRegexMatch (cleanDateText raw) = some (mon, day) ∧
          monthIndex (pyLower mon) = some r.month ∧ dayValue day = r.day := by
  constructor
  · intro year h1 h2
    rw [parseMeetingDate_regex_some "January 30-31" year
      (show monthRegexMatch (cleanDateText "January 30-31") = some ("January", "30")
        from by decide)]
    exact strptimeBdY_ok
      (show monthIndex (pyLower "January") = some 1 from by decide)
      (show dayValue "30" = 30 from by decide)
      (by decide) ⟨h1, h2⟩
      (by rw [show daysInMonth year 1 = 31 from rfl]; omega)
  · intro raw year r h
    cases hm : monthRegexMatch (cleanDateText raw) with
    | none =>
      rw [parseMeetingDate_regex_none raw year hm] at h
      exact absurd h (by simp)
    | some md =>
      obtain ⟨mon, day⟩ := md
      rw [parseMeetingDate_regex_some raw year hm] at h
      cases hmi : monthIndex (pyLower mon) with
      | none =>
        rw [strptimeBdY_noMonth day year hmi] at h
        exact absurd h (by simp)
      | some m =>
        rw [strptimeBdY_someMonth day year hmi] at h
        split_ifs at h
        rw [Except.ok.injEq] at h
        rw [← h]
        exact ⟨rfl, mon, day, rfl, hmi, rfl⟩

/-- Witness for C1 (amended) at year 2024: the full-month header parses
to 2024-01-30, and the parsed record carries the inferred year and the
first captured day. -/
theorem C1_witness :
    parseMeetingDate "January 30-31" 2024 = .ok ⟨2024, 1, 30⟩ ∧
    ((⟨2024, 1, 30⟩ : Date).year = 2024 ∧
      ∃ mon day, monthRegexMatch (cleanDateText "January 30-31") = some (mon, day) ∧
        monthIndex (pyLower mon) = some (⟨2024, 1, 30⟩ : Date).month ∧
        dayValue day = (⟨2024, 1, 30⟩ : Date).day) :=
  ⟨C1_amended.1 2024 (by decide) (by decide),
   C1_amended.2 "January 30-31" 2024 ⟨2024, 1, 30⟩
     (C1_amended.1 2024 (by decide) (by decide))⟩

/-! ## C5: rows with unparsable dates are silently dropped -/

/-- C5: a table row whose header-cell text does not match the leading
`<Month> <Day>[-<Day>]` pattern is skipped by `parse_calendar`'s loop
— it contributes no record and no diagnostic.  The embedding of the
whole parse (`parseCalendar`) is a total function, mirroring the
`try/except ValueError: continue` that prevents any exception from
escaping the row loop. -/
theorem C5_theorem :
    ∀ (root : Html) (minYear : Int) (pn : HtmlPath × Html) (dateCell : Html),
      findFirst pn.2 ["th"] = some dateCell →
      monthRegexMatch (cleanDateText (normalizeWhitespace (getText dateCell))) = none →
      processRow root minYear pn = none := by
  intro root minYear pn dateCell hth hre
  cases htd : findFirst pn.2 ["td"] with
  | none => unfold processRow; rw [hth, htd]
  | some linkCell =>
    rw [processRow_qualifying root minYear hth htd]
    unfold processQualifying
    cases hyr : findYearForRow root pn.1 with
    | none => rfl
    | some year =>
      show (if (year : Int) < minYear then none
            else processWithYear root pn.1 dateCell linkCell year) = none
      split_ifs
      · rfl
      · unfold processWithYear
        rw [parseMeetingDate_regex_none _ _ hre]

/-- Witness for C5: the concrete "TBD" row is dropped. -/
theorem C5_witness :
    processRow exTreeTBD 2016 ([0, 0, 0], exRowTBD) = none :=
  C5_theorem exTreeTBD 2016 ([0, 0, 0], exRowTBD) (.elem "th" [] [.text "TBD"])
    rfl (by decide)

/-! ## Helper lemmas: stability of insertion sort under `filter` -/

lemma filter_orderedInsert_pos {α : Type} (r : α → α → Prop) [DecidableRel r]
    (p : α → Bool) (x : α) (hx : p x = true) :
    ∀ l : List α, (∀ y ∈ l, p y = true → r x y) →
      (List.orderedInsert r x l).filter p = x :: l.filter p := by
  intro l
  induction l with
  | nil => intro _; simp [hx]
  | cons y l ih =>
    intro h
    rw [List.orderedInsert]
    by_cases hr : r x y
    · rw [if_pos hr, List.filter_cons_of_pos hx]
    · rw [if_neg hr]
      have hy : p y = false := by
        cases hpy : p y
        · rfl
        · exact absurd (h y (List.mem_cons_self y l) hpy) hr
      rw [List.filter_cons_of_neg (by simp [hy]), List.filter_cons_of_neg (by simp [hy])]
      exact ih (fun z hz hpz => h z (List.mem_cons_of_mem y hz) hpz)

lemma filter_orderedInsert_neg {α : Type} (r : α → α → Prop) [DecidableRel r]
    (p : α → Bool) (x : α) (hx : p x = false) :
    ∀ l : List α, (List.orderedInsert r x l).filter p = l.filter p := by
  intro l
  induction l with
  | nil => simp [hx]
  | cons y l ih =>
    rw [List.orderedInsert]
    by_cases hr : r x y
    · rw [if_pos hr, List.filter_cons_of_neg (by simp [hx])]
    · rw [if_neg hr]
      cases hy : p y
      · rw [List.filter_cons_of_neg (by simp [hy]), List.filter_cons_of_neg (by simp [hy]), ih]
      · rw [List.filter_cons_of_pos (by simp [hy]), List.filter_cons_of_pos (by simp [hy]), ih]

/-- For a predicate whose satisfying elements are pairwise `r`-related
(e.g. "has this exact sort key"), filtering commutes with insertion
sort: the sort keeps such elements in their original relative order. -/
lemma filter_insertionSort {α : Type} (r : α → α → Prop) [DecidableRel r]
    (p : α → Bool) (hp : ∀ a b, p a = true → p b = true → r a b) :
    ∀ l : List α, (List.insertionSort r l).filter p = l.filter p := by
  intro l
  induction l with
  | nil => rfl
  | cons a l ih =>
    rw [List.insertionSort]
    cases ha : p a
    · rw [filter_orderedInsert_neg r p a ha, ih, List.filter_cons_of_neg (by simp [ha])]
    · rw [filter_orderedInsert_pos r p a ha _
        (fun y _ hpy => hp a y ha hpy), ih, List.filter_cons_of_pos (by simp [ha])]

/-! ## C6: the parser's output is sorted and the sort is stable -/

/-- C6: for every document, `parse_calendar`'s output is sorted
ascending by `meeting_date`, and records with equal dates appear in
their row-encounter order: filtering the output to any fixed date gives
exactly the pre-sort scan list filtered to that date. -/
theorem C6_theorem :
    ∀ (root : Html) (maxYears currentYear : Int),
      List.Sorted meetingLe (parseCalendar root maxYears currentYear) ∧
      ∀ d : Date,
        (parseCalendar root maxYears currentYear).filter
            (fun m => m.meeting_date == d) =
          (scanRows root (currentYear - maxYears + 1)).filter
            (fun m => m.meeting_date == d) := by
  intro root maxYears currentYear
  constructor
  · exact List.sorted_insertionSort meetingLe _
  · intro d
    unfold parseCalendar
    apply filter_insertionSort
    intro a b ha hb
    have ha' : a.meeting_date = d := by simpa using ha
    have hb' : b.meeting_date = d := by simpa using hb
    unfold meetingLe Date.le
    rw [ha', hb']
    omega

/-! ## Helper lemmas: last-match-wins link classification -/

lemma or_assoc' {α : Type} (a b c : Option α) : (a.or b).or c = a.or (b.or c) := by
  cases a <;> rfl

lemma or_none' {α : Type} (a : Option α) : a.or none = a := by
  cases a <;> rfl

lemma pairStep_fst (acc : Option String × Option String) (l : String × String) :
    (pairStep acc l).1 = (linkHit "statement" l).or acc.1 := by
  unfold pairStep linkHit
  split_ifs <;> rfl

lemma pairStep_snd (acc : Option String × Option String) (l : String × String) :
    (pairStep acc l).2 = (linkHit "projection" l).or acc.2 := by
  unfold pairStep linkHit
  split_ifs <;> rfl

lemma lastMatchingUrl_cons (word : String) (x : String × String)
    (ls : List (String × String)) :
    lastMatchingUrl word (x :: ls) = (lastMatchingUrl word ls).or (linkHit word x) := by
  unfold lastMatchingUrl linkHit
  by_cases hx : containsSub word x.1 = true
  · rw [List.filter_cons_of_pos (by simp [hx]), if_pos hx]
    cases hf : ls.filter (fun l => containsSub word l.1) with
    | nil => rfl
    | cons y t =>
      rw [List.getLast?_cons_cons]
      cases hg : (y :: t).getLast? with
      | none => exact absurd hg (by simp)
      | some v => rfl
  · rw [List.filter_cons_of_neg (by simp [hx]), if_neg hx, or_none']

lemma foldl_pairStep : ∀ (ls : List (String × String)) acc,
    ls.foldl pairStep acc =
      ((lastMatchingUrl "statement" ls).or acc.1,
       (lastMatchingUrl "projection" ls).or acc.2) := by
  intro ls
  induction ls with
  | nil =>
    intro acc
    show acc = _
    rw [show lastMatchingUrl "statement" [] = none from rfl,
        show lastMatchingUrl "projection" [] = none from rfl]
    cases acc
    rfl
  | cons x ls ih =>
    intro acc
    rw [List.foldl_cons, ih (pairStep acc x), lastMatchingUrl_cons, lastMatchingUrl_cons,
        pairStep_fst, pairStep_snd, or_assoc', or_assoc']

lemma extractLinksStep_of_none {a : Html} (acc : Option String × Option String)
    (h : linkPair a = none) : extractLinksStep acc a = acc := by
  unfold extractLinksStep
  unfold linkPair at h
  cases ha : a.attr "href" with
  | none => rfl
  | some href =>
    rw [ha] at h
    change (if href = "" then none else some (pyLower (getTextStrip a), href)) = none at h
    by_cases he : href = ""
    · show (if href = "" then acc else _) = acc
      rw [if_pos he]
    · rw [if_neg he] at h
      exact absurd h (by simp)

lemma extractLinksStep_of_some {a : Html} {pr : String × String}
    (acc : Option String × Option String)
    (h : linkPair a = some pr) : extractLinksStep acc a = pairStep acc pr := by
  unfold extractLinksStep
  unfold linkPair at h
  cases ha : a.attr "href" with
  | none =>
    rw [ha] at h
    change (none : Option (String × String)) = some pr at h
    exact absurd h (by simp)
  | some href =>
    rw [ha] at h
    change (if href = "" then none else some (pyLower (getTextStrip a), href)) = some pr at h
    by_cases he : href = ""
    · rw [if_pos he] at h
      exact absurd h (by simp)
    · rw [if_neg he] at h
      rw [Option.some.injEq] at h
      subst h
      show (if href = "" then acc else _) = _
      rw [if_neg he]
      unfold pairStep
      rfl

lemma foldl_extractLinksStep : ∀ (as : List Html) acc,
    as.foldl extractLinksStep acc = (as.filterMap linkPair).foldl pairStep acc := by
  intro as
  induction as with
  | nil => intro acc; rfl
  | cons a as ih =>
    intro acc
    rw [List.foldl_cons]
    cases hp : linkPair a with
    | none =>
      rw [List.filterMap_cons_none hp, extractLinksStep_of_none acc hp, ih]
    | some pr =>
      rw [List.filterMap_cons_some hp, List.foldl_cons,
          extractLinksStep_of_some acc hp, ih]

/-! ## C7: link classification -/

/-- C7: for every data cell, `_extract_links` returns as
`statement_url` the resolved URL of the last hyperlink (anchor with a
non-empty `href`) whose lowercased text contains "statement", and as
`projection_url` that of the last whose text contains "projection";
links matching neither are ignored.  On a cell with a "Statement" link
and a "Press Conference Projection Materials" link, those URLs land in
`statement_url` and `projection_url` respectively. -/
theorem C7_theorem :
    (∀ cell : Html,
      extractLinks cell =
        (lastMatchingUrl "statement" (cellHyperlinks cell),
         lastMatchingUrl "projection" (cellHyperlinks cell))) ∧
    extractLinks exCellC7 =
      (some "https://www.federalreserve.gov/newsevents/pressreleases/monetary20240131a.htm",
       some "https://www.federalreserve.gov/monetarypolicy/fomcprojtabl20240131.htm") := by
  constructor
  · intro cell
    unfold extractLinks cellHyperlinks
    rw [foldl_extractLinksStep, foldl_pairStep, or_none', or_none']
  · decide

/-! ## Helper lemmas: `_group_by_year` and dictionary lookup -/

lemma find?_addToGroup (y : String) (e : MeetingEntry) (k : String) :
    ∀ g : List (String × List MeetingEntry),
      (addToGroup g y e).find? (fun kv => kv.1 = k) =
        if k = y then
          match g.find? (fun kv => kv.1 = y) with
          | some kv => some (kv.1, kv.2 ++ [e])
          | none => some (y, [e])
        else g.find? (fun kv => kv.1 = k) := by
  intro g
  induction g with
  | nil =>
    by_cases hk : k = y
    · rw [if_pos hk]
      show List.find? (fun kv => kv.1 = k) [(y, [e])] = _
      rw [List.find?_cons_of_pos _ (by simp [hk.symm])]
      rfl
    · rw [if_neg hk]
      show List.find? (fun kv => kv.1 = k) [(y, [e])] = _
      rw [List.find?_cons_of_neg _ (by simp; exact fun hh => hk hh.symm)]
  | cons kv g ih =>
    obtain ⟨k', v⟩ := kv
    unfold addToGroup
    by_cases h1 : k' = y
    · rw [if_pos h1]
      by_cases h2 : k = k'
      · rw [List.find?_cons_of_pos _ (by simp [h2.symm]),
            if_pos (h2.trans h1),
            List.find?_cons_of_pos _ (by simp [h1])]
      · rw [List.find?_cons_of_neg _ (by simp; exact fun hh => h2 hh.symm),
            if_neg (fun hh => h2 (hh.trans h1.symm)),
            List.find?_cons_of_neg _ (by simp; exact fun hh => h2 hh.symm)]
    · rw [if_neg h1]
      by_cases h2 : k = k'
      · rw [List.find?_cons_of_pos _ (by simp [h2.symm]),
            if_neg (fun hh => h1 (h2.symm.trans hh)),
            List.find?_cons_of_pos _ (by simp [h2.symm])]
      · rw [List.find?_cons_of_neg _ (by simp; exact fun hh => h2 hh.symm), ih]
        by_cases hk : k = y
        · rw [if_pos hk, if_pos hk, List.find?_cons_of_neg _ (by simp [h1])]
        · rw [if_neg hk, if_neg hk,
              List.find?_cons_of_neg _ (by simp; exact fun hh => h2 hh.symm)]

/-- The grouping fold: looking up key `k` in the accumulated groups
after processing `es` extends whatever was under `k` with exactly the
entries of `es` whose year is `k`, in encounter order. -/
lemma find?_groupFold (k : String) :
    ∀ (es : List MeetingEntry) (g : List (String × List MeetingEntry)),
      ((es.foldl (fun g e => addToGroup g (yearKey e) e) g).find? (fun kv => kv.1 = k)) =
        match g.find? (fun kv => kv.1 = k) with
        | some kv => some (kv.1, kv.2 ++ es.filter (fun e => yearKey e = k))
        | none =>
          if (es.filter (fun e => yearKey e = k)).isEmpty then none
          else some (k, es.filter (fun e => yearKey e = k)) := by
  intro es
  induction es with
  | nil =>
    intro g
    rw [List.foldl_nil, List.filter_nil]
    cases hg : g.find? (fun kv => kv.1 = k) with
    | none => rfl
    | some kv => simp
  | cons e es ih =>
    intro g
    rw [List.foldl_cons, ih (addToGroup g (yearKey e) e), find?_addToGroup]
    by_cases hk : k = yearKey e
    · rw [if_pos hk, List.filter_cons_of_pos (by simp [hk.symm]), ← hk]
      cases hg : g.find? (fun kv => kv.1 = k) with
      | some kv => simp
      | none => simp
    · rw [if_neg hk, List.filter_cons_of_neg (by simp; exact fun hh => hk hh.symm)]

lemma find?_mapValues {β γ : Type} (f : β → γ) (k : String) :
    ∀ g : List (String × β),
      (g.map (fun kv => (kv.1, f kv.2))).find? (fun kv => kv.1 = k) =
        (g.find? (fun kv => kv.1 = k)).map (fun kv => (kv.1, f kv.2)) := by
  intro g
  induction g with
  | nil => rfl
  | cons kv g ih =>
    by_cases hk : kv.1 = k
    · rw [List.map_cons, List.find?_cons_of_pos _ (by simp [hk]),
          List.find?_cons_of_pos _ (by simp [hk])]
      rfl
    · rw [List.map_cons, List.find?_cons_of_neg _ (by simp [hk]),
          List.find?_cons_of_neg _ (by simp [hk]), ih]

lemma find?_orderedInsert {β : Type} (r : (String × β) → (String × β) → Prop)
    [DecidableRel r] (x : String × β) (k : String) :
    ∀ l : List (String × β), (∀ kv ∈ l, kv.1 ≠ x.1) →
      (List.orderedInsert r x l).find? (fun kv => kv.1 = k) =
        if k = x.1 then some x else l.find? (fun kv => kv.1 = k) := by
  intro l
  induction l with
  | nil =>
    intro _
    by_cases hk : k = x.1
    · rw [if_pos hk]
      show List.find? _ [x] = _
      rw [List.find?_cons_of_pos _ (by simp [hk.symm])]
    · rw [if_neg hk]
      show List.find? _ [x] = _
      rw [List.find?_cons_of_neg _ (by simp; exact fun h => hk h.symm)]
  | cons y l ih =>
    intro hx
    rw [List.orderedInsert]
    by_cases hr : r x y
    · rw [if_pos hr]
      by_cases hk : k = x.1
      · rw [if_pos hk, List.find?_cons_of_pos _ (by simp [hk.symm])]
      · rw [if_neg hk, List.find?_cons_of_neg _ (by simp; exact fun h => hk h.symm)]
    · rw [if_neg hr]
      by_cases hy : y.1 = k
      · have hkx : ¬ k = x.1 := by
          intro hh
          exact hx y (List.mem_cons_self y l) (by rw [hy, hh])
        rw [if_neg hkx, List.find?_cons_of_pos _ (by simp [hy]),
            List.find?_cons_of_pos _ (by simp [hy])]
      · rw [List.find?_cons_of_neg _ (by simp [hy]),
            List.find?_cons_of_neg _ (by simp [hy]),
            ih (fun kv hkv => hx kv (List.mem_cons_of_mem y hkv))]

lemma find?_insertionSort_pairs {β : Type} (r : (String × β) → (String × β) → Prop)
    [DecidableRel r] (k : String) :
    ∀ l : List (String × β), (l.map (fun kv => kv.1)).Nodup →
      (List.insertionSort r l).find? (fun kv => kv.1 = k) =
        l.find? (fun kv => kv.1 = k) := by
  intro l
  induction l with
  | nil => intro _; rfl
  | cons x l ih =>
    intro hnd
    rw [List.map_cons, List.nodup_cons] at hnd
    rw [List.insertionSort,
        find?_orderedInsert r x k _ (fun kv hkv hk => by
          have hmem : kv ∈ l := (List.perm_insertionSort r l).mem_iff.mp hkv
          exact hnd.1 (hk ▸ List.mem_map_of_mem (fun kv => kv.1) hmem)),
        ih hnd.2]
    by_cases hk : k = x.1
    · rw [if_pos hk, List.find?_cons_of_pos _ (by simp [hk.symm])]
    · rw [if_neg hk, List.find?_cons_of_neg _ (by simp; exact fun h => hk h.symm)]

lemma keys_addToGroup (y : String) (e : MeetingEntry) :
    ∀ g : List (String × List MeetingEntry),
      (addToGroup g y e).map (fun kv => kv.1) =
        if y ∈ g.map (fun kv => kv.1) then g.map (fun kv => kv.1)
        else g.map (fun kv => kv.1) ++ [y] := by
  intro g
  induction g with
  | nil => simp [addToGroup]
  | cons kv g ih =>
    obtain ⟨k', v⟩ := kv
    unfold addToGroup
    by_cases h1 : k' = y
    · rw [if_pos h1]
      simp [h1]
    · rw [if_neg h1, List.map_cons, List.map_cons, ih]
      by_cases h2 : y ∈ g.map (fun kv => kv.1)
      · rw [if_pos h2, if_pos (by simp [h2])]
      · rw [if_neg h2, if_neg (by simp [h2]; exact fun h => h1 h.symm)]
        rfl

lemma nodup_keys_groupFold :
    ∀ (es : List MeetingEntry) (g : List (String × List MeetingEntry)),
      (g.map (fun kv => kv.1)).Nodup →
      ((es.foldl (fun g e => addToGroup g (yearKey e) e) g).map (fun kv => kv.1)).Nodup := by
  intro es
  induction es with
  | nil => intro g h; exact h
  | cons e es ih =>
    intro g h
    rw [List.foldl_cons]
    apply ih
    rw [keys_addToGroup]
    by_cases hm : yearKey e ∈ g.map (fun kv => kv.1)
    · rw [if_pos hm]; exact h
    · rw [if_neg hm]
      simp [List.nodup_append, h, hm]

/-- Looking a year up in `_group_by_year`'s result: present iff some
entry has that year, and its value is that year's entries, ascending. -/
lemma groupByYear_find? (entries : List MeetingEntry) (k : String) :
    (groupByYear entries).find? (fun kv => kv.1 = k) =
      if (entries.filter (fun e => yearKey e = k)).isEmpty then none
      else some (k, List.insertionSort entryLe (entries.filter (fun e => yearKey e = k))) := by
  unfold groupByYear
  rw [find?_insertionSort_pairs pairGe k _ (by
        rw [show ((entries.foldl (fun g e => addToGroup g (yearKey e) e) []).map
              (fun kv => (kv.1, List.insertionSort entryLe kv.2))).map (fun kv => kv.1) =
            (entries.foldl (fun g e => addToGroup g (yearKey e) e) []).map (fun kv => kv.1) from by
          rw [List.map_map]; rfl]
        exact nodup_keys_groupFold entries [] (by simp)),
      find?_mapValues, find?_groupFold k entries []]
  rw [show (List.find? (fun kv => kv.1 = k) [] : Option (String × List MeetingEntry)) = none
    from rfl]
  by_cases h : (entries.filter (fun e => yearKey e = k)).isEmpty
  · rw [if_pos h, if_pos h]
    rfl
  · rw [if_neg h, if_neg h]
    rfl

/-! ## C9: `/statements/{year}` -/

/-- C9: `GET /statements/{year}` answers 404 (with its detail message)
exactly when no logged entry's `meeting_date` falls in that year (the
date's year component: the text before the first hyphen), and
otherwise returns exactly that year's entries, ascending by date. -/
theorem C9_theorem :
    ∀ (logFile : Option (List CsvRow)) (year : String),
      statementsByYear logFile year =
        if ((loadEntries logFile).filter (fun e => yearKey e = year)).isEmpty then
          .error ⟨404, "No statements found for " ++ year⟩
        else
          .ok (List.insertionSort entryLe
            ((loadEntries logFile).filter (fun e => yearKey e = year))) := by
  intro logFile year
  unfold statementsByYear
  rw [groupByYear_find? (loadEntries logFile) year]
  by_cases h : ((loadEntries logFile).filter (fun e => yearKey e = year)).isEmpty
  · rw [if_pos h, if_pos h]
  · rw [if_neg h, if_neg h]

end Fomc
